import Mathlib

set_option autoImplicit false

/-!
Verification of the AFUZZ URL fuzzer (`afuzz.py`).

The Python source is shallowly embedded: Python strings become lists of
characters (`Str`), the HTTP transport (`requests.get` / `aiohttp` session
GET) becomes an explicit function `Str → FetchResult`, the output log file
becomes a list of written lines, and `asyncio.gather` is modeled with an
explicit arrival order of task completions.

The committed module itself does not compile: its line 88 ends inside an
unterminated string literal, which CPython rejects before anything runs.
`afuzz_process` models what a real invocation therefore does (exit with
status 1 at compile time); `sync_fuzz`, `async_fuzz`, `fetch_url` and `main`
embed the functions as written in the file.
-/

namespace AFuzz

/-- Python strings are modeled as lists of characters. -/
abbrev Str := List Char

/-- The whitespace characters removed by Python's `str.strip()`
(the ASCII whitespace set). -/
def isPySpace (c : Char) : Bool :=
  c = ' ' || c = '\t' || c = '\n' || c = '\r' || c = '\x0b' || c = '\x0c'

/-- Python `s.strip()`: remove leading and trailing whitespace. -/
def pyStrip (s : Str) : Str :=
  ((s.dropWhile isPySpace).reverse.dropWhile isPySpace).reverse

/-- Python `s.lower()` (ASCII case mapping, which is all the driver uses it for). -/
def pyLower (s : Str) : Str := s.map Char.toLower

/-- Python `base_url.replace('@', repl)`: every occurrence of the character
`'@'` is replaced by `repl`; the replacement text is not rescanned. -/
def replaceAt (repl : Str) : Str → Str
  | [] => []
  | c :: cs => if c = '@' then repl ++ replaceAt repl cs else c :: replaceAt repl cs

/-- `url = base_url.replace('@', payload.strip())` (afuzz.py lines 31 and 55). -/
def probe_url (base payload : Str) : Str := replaceAt (pyStrip payload) base

/-- The result of one HTTP GET at the transport boundary: a response with a
status code, or a raised exception (connection refused, timeout, DNS failure…). -/
inductive FetchResult where
  | ok (status : Nat)
  | err
deriving DecidableEq

/-- A transport assigns to every URL the result its GET would produce. -/
abbrev Transport := Str → FetchResult

/-- What one `fetch_url` coroutine hands back to `asyncio.gather`
(afuzz.py lines 68-78): a dict `{'url': url, 'status': status}` on any
received response, or the caught exception object. -/
inductive TaskResult where
  | dict (url : Str) (status : Nat)
  | exc
deriving DecidableEq

/-- `fetch_url(session, url)`: returns the url/status dict, or the exception. -/
def fetch_url (transport : Transport) (url : Str) : TaskResult :=
  match transport url with
  | .ok s => .dict url s
  | .err => .exc

/-- The sink-observable state of one fuzzing run: the success counter, the
lines printed to the terminal, and the lines written to the output log. -/
structure RunResult where
  success_count : Nat
  printed : List Str
  log_file : List Str
deriving DecidableEq

/-- Contents of a file handle right after `open(path, mode)`:
mode `"w"` truncates; the prior contents are discarded. -/
def openContents (mode : String) (prior : List Str) : List Str :=
  if mode = "w" then [] else prior

/-- The body of the `for payload in payloads` loop of `sync_fuzz`
(afuzz.py lines 30-39): substitute, GET, and on a 200 print the URL and
append it to the log; non-200 and exceptions produce no observable action. -/
def syncStep (transport : Transport) (base : Str) (st : RunResult) (payload : Str) :
    RunResult :=
  let url := probe_url base payload
  match transport url with
  | .ok s =>
      if s = 200 then
        ⟨st.success_count + 1, st.printed ++ [url], st.log_file ++ [url]⟩
      else st
  | .err => st

/-- `sync_fuzz(base_url, payloads, output_file)` (afuzz.py lines 22-41):
the output file is opened with mode `'w'` and the payloads are processed
one after the other. `prior` is the output file's contents before the run. -/
def sync_fuzz (base : Str) (payloads : List Str) (transport : Transport)
    (prior : List Str) : RunResult :=
  payloads.foldl (syncStep transport base) ⟨0, [], openContents "w" prior⟩

/-- Observable events of a sequential run: a request is issued, a request
resolves (with a response or an exception), a line is written to the log. -/
inductive Event where
  | request (url : Str)
  | resolve (url : Str) (r : FetchResult)
  | logWrite (url : Str)
deriving DecidableEq

/-- The sink events caused by one resolved probe: a 200 writes its URL,
anything else writes nothing. -/
def successEvents (url : Str) (r : FetchResult) : List Event :=
  match r with
  | .ok s => if s = 200 then [.logWrite url] else []
  | .err => []

/-- The event trace of `sync_fuzz`: `requests.get` is a blocking call, so
each iteration issues its request and sees it resolve before the loop moves
to the next payload. -/
def sync_fuzz_trace (base : Str) (transport : Transport) : List Str → List Event
  | [] => []
  | p :: ps =>
      .request (probe_url base p) ::
        .resolve (probe_url base p) (transport (probe_url base p)) ::
        (successEvents (probe_url base p) (transport (probe_url base p)) ++
          sync_fuzz_trace base transport ps)

/-- The URLs of the request events of a trace, in order. -/
def requestsOf (trace : List Event) : List Str :=
  trace.filterMap fun e =>
    match e with
    | .request u => some u
    | _ => none

/-- Scans a trace with at most one in-flight request: a new request may only
be issued when none is pending, and a pending request must resolve (to its
own URL) before anything further is dispatched. -/
def seqCheck : Option Str → List Event → Bool
  | none, [] => true
  | some _, [] => false
  | none, .request u :: es => seqCheck (some u) es
  | none, .resolve _ _ :: _ => false
  | none, .logWrite _ :: es => seqCheck none es
  | some _, .request _ :: _ => false
  | some u, .resolve v _ :: es => if v = u then seqCheck none es else false
  | some _, .logWrite _ :: _ => false

/-- The completion events of the gathered tasks in their arrival order:
arrival position `k` finishes task number `arrival[k]`, carrying that task's
result tagged with its task index. -/
def gatherPairs (tasks : List TaskResult) (arrival : List Nat) :
    List (Nat × TaskResult) :=
  arrival.filterMap fun i => (tasks.get? i).map fun t => (i, t)

/-- `asyncio.gather(*tasks)`: waits for every task and returns one result
per task slot, ordered by task index, however the completions arrived. -/
def asyncio_gather (tasks : List TaskResult) (arrival : List Nat) :
    List TaskResult :=
  (List.range tasks.length).filterMap fun i => (gatherPairs tasks arrival).lookup i

/-- The tasks created by `async_fuzz` before gathering (afuzz.py lines 53-56),
one per payload, in payload order. -/
def async_tasks (base : Str) (payloads : List Str) (transport : Transport) :
    List TaskResult :=
  payloads.map fun p => fetch_url transport (probe_url base p)

/-- `results = await asyncio.gather(*tasks, return_exceptions=True)`. -/
def async_results (base : Str) (payloads : List Str) (transport : Transport)
    (arrival : List Nat) : List TaskResult :=
  asyncio_gather (async_tasks base payloads transport) arrival

/-- The body of the `for i, result in enumerate(results)` loop of
`async_fuzz` (afuzz.py lines 59-63): a dict result with status 200 is
counted, printed and logged; everything else is skipped. -/
def asyncStep (st : RunResult) (r : TaskResult) : RunResult :=
  match r with
  | .dict u s =>
      if s = 200 then
        ⟨st.success_count + 1, st.printed ++ [u], st.log_file ++ [u]⟩
      else st
  | .exc => st

/-- `async_fuzz(base_url, payloads, output_file)` (afuzz.py lines 44-65):
open the output file with mode `'w'`, create one task per payload, gather
them all, then fold over the results. -/
def async_fuzz (base : Str) (payloads : List Str) (transport : Transport)
    (prior : List Str) (arrival : List Nat) : RunResult :=
  (async_results base payloads transport arrival).foldl asyncStep
    ⟨0, [], openContents "w" prior⟩

/-! ## The driver (`main`, afuzz.py lines 81-128)

`urlparse` is embedded from CPython's `urlsplit` for the scheme/netloc
components `is_valid_url` inspects: strip surrounding C0-control/space
characters, remove tab/CR/LF, split off a well-formed scheme, and read the
netloc after `//` up to the next `/`, `?` or `#`; a netloc with unbalanced
square brackets raises `ValueError` (which `is_valid_url` catches). -/

/-- A C0 control character or the space character. -/
def isC0OrSpace (c : Char) : Bool := c.val ≤ 32

/-- `urlsplit` strips leading and trailing C0-control/space characters. -/
def stripC0 (s : Str) : Str :=
  ((s.dropWhile isC0OrSpace).reverse.dropWhile isC0OrSpace).reverse

/-- `urlsplit` removes every tab, carriage return and line feed. -/
def removeUnsafe (s : Str) : Str :=
  s.filter fun c => !(c = '\t' || c = '\r' || c = '\n')

/-- The characters allowed in a URL scheme after its initial letter. -/
def isSchemeChar (c : Char) : Bool := c.isAlphanum || c = '+' || c = '-' || c = '.'

/-- Split a leading `scheme:` off a URL: the part before the first `:` must be
nonempty, start with a letter and consist of scheme characters, else the URL
has no scheme. Returns (scheme lowercased, rest). -/
def splitScheme (s : Str) : Str × Str :=
  let pre := s.takeWhile fun c => c ≠ ':'
  match s.drop pre.length with
  | ':' :: rest =>
      match pre with
      | [] => ([], s)
      | c :: _ => if c.isAlpha && pre.all isSchemeChar then (pyLower pre, rest) else ([], s)
  | _ => ([], s)

/-- The netloc of a URL whose scheme has been split off: the characters after
a leading `//` up to the next `/`, `?` or `#`; empty when there is no `//`. -/
def splitNetloc : Str → Str
  | '/' :: '/' :: rest => rest.takeWhile fun c => !(c = '/' || c = '?' || c = '#')
  | _ => []

/-- `is_valid_url(url)` (afuzz.py lines 10-19): true iff `urlparse` yields a
nonempty scheme and a nonempty netloc; a `ValueError` (unbalanced square
brackets in the netloc) gives false. CPython's `_checknetloc` raises a
further `ValueError` when a non-ASCII netloc's NFKC normalization introduces
one of `/?#@:`; that check needs the Unicode normalization tables and is
outside this embedding, which is exact for netlocs made of ASCII characters
(on which `_checknetloc` never raises). -/
def is_valid_url (url : Str) : Bool :=
  let u := removeUnsafe (stripC0 url)
  let (scheme, rest) := splitScheme u
  let netloc := splitNetloc rest
  if ('[' ∈ netloc && ']' ∉ netloc) || (']' ∈ netloc && '[' ∉ netloc) then false
  else decide (scheme ≠ []) && decide (netloc ≠ [])

/-- Text mode (`open(..., 'r')`) universal newlines: `\r\n` and a lone `\r`
both read as `\n`. -/
def universalNewlines : Str → Str
  | [] => []
  | [c] => if c = '\r' then ['\n'] else [c]
  | c :: d :: rest =>
      if c = '\r' && d = '\n' then '\n' :: universalNewlines rest
      else if c = '\r' then '\n' :: universalNewlines (d :: rest)
      else c :: universalNewlines (d :: rest)

/-- Split normalized text into lines, each keeping its trailing `\n`;
a final unterminated fragment forms a last line. `acc` holds the current
line's characters in reverse. -/
def readlinesAux (acc : Str) : Str → List Str
  | [] => if acc = [] then [] else [acc.reverse]
  | c :: rest =>
      if c = '\n' then (acc.reverse ++ ['\n']) :: readlinesAux [] rest
      else readlinesAux (c :: acc) rest

/-- `f.readlines()` on a text-mode file with the given raw contents. -/
def readlines (content : Str) : List Str :=
  readlinesAux [] (universalNewlines content)

/-- The fuzzing mode: `-m sync` (default) or `-m async`; `argparse`
rejects anything else. -/
inductive Mode where
  | sync
  | async
deriving DecidableEq

/-- The parsed command-line arguments. -/
structure Args where
  url : Str
  wordlist : Str
  output : Str
  mode : Mode

/-- The environment `main` runs against: the filesystem state it consults,
the operator's answer to the overwrite prompt, the transport, and the
arrival order of the async tasks. `output_contents` is `none` when the
output path does not exist. `wordlist_content` is `none` when opening or
reading the wordlist raises. -/
structure Env where
  wordlist_isfile : Bool
  output_contents : Option (List Str)
  overwrite_answer : Str
  wordlist_content : Option Str
  transport : Transport
  arrival : List Nat

/-- What a `main` invocation leaves behind: the process exit status, the
output path's contents afterwards (`none` = still no such file), and the
run's sink state when a run happened. -/
structure DriverResult where
  exitCode : Nat
  outputFile : Option (List Str)
  runResult : Option RunResult

/-- The fuzzing run `main` performs once every check has passed
(afuzz.py lines 124-128): the payloads are `f.readlines()` and the chosen
mode's engine runs against the output path's prior contents. -/
def runEngine (a : Args) (env : Env) (content : Str) : RunResult :=
  match a.mode with
  | .sync =>
      sync_fuzz a.url (readlines content) env.transport
        (env.output_contents.getD [])
  | .async =>
      async_fuzz a.url (readlines content) env.transport
        (env.output_contents.getD []) env.arrival

/-- The driver logic of `main()` (afuzz.py lines 81-128) as written: validate
the URL, require the `@` placeholder, require the wordlist to be a file,
confirm overwriting an existing output file, read the wordlist, then dispatch
to the chosen mode. Every failed check is `sys.exit(1)`; falling off the end
exits 0. This logic is unreachable in the committed file: line 88, the
`description=` string of the `argparse` call inside this very function, fails
to tokenize, so the module never compiles — `afuzz_process` below models what
an invocation actually does. -/
def main (a : Args) (env : Env) : DriverResult :=
  if ¬ is_valid_url a.url then ⟨1, env.output_contents, none⟩
  else if '@' ∉ a.url then ⟨1, env.output_contents, none⟩
  else if ¬ env.wordlist_isfile then ⟨1, env.output_contents, none⟩
  else if env.output_contents.isSome ∧ pyLower (pyStrip env.overwrite_answer) ≠ ['y'] then
    ⟨1, env.output_contents, none⟩
  else
    match env.wordlist_content with
    | none => ⟨1, env.output_contents, none⟩
    | some content =>
        ⟨0, some (runEngine a env content).log_file, some (runEngine a env content)⟩

/-- The conditions under which `main` refuses to run: invalid template URL,
no `@` placeholder, wordlist path not an existing file, declined overwrite of
an existing output file, or a wordlist read error. -/
def inputError (a : Args) (env : Env) : Prop :=
  is_valid_url a.url = false ∨ '@' ∉ a.url ∨ env.wordlist_isfile = false ∨
    (env.output_contents.isSome = true ∧
      pyLower (pyStrip env.overwrite_answer) ≠ ['y']) ∨
    env.wordlist_content = none

instance (a : Args) (env : Env) : Decidable (inputError a env) := by
  unfold inputError
  infer_instance

/-! ## The committed module's syntax error

CPython compiles a module before executing any of it. A single- or
double-quoted string literal must close on its own physical line (a raw
newline inside one is `SyntaxError: unterminated string literal`), and the
interpreter then exits with status 1. Line 88 of afuzz.py opens the
`description=` string and the line ends before the closing quote (it sits on
line 89), so every invocation of the program dies at compile time. -/

/-- State of CPython's tokenizer within one physical line: in code, in a
`#` comment, just after one or two opening quotes, inside a single-line
string (possibly right after a backslash escape), or inside a triple-quoted
string (possibly after an escape, or having just seen one or two closing
quotes). The delimiter `q` is `'` or `"`. -/
inductive PyLineState where
  | code
  | comment
  | strOpen1 (q : Char)
  | strOpen2 (q : Char)
  | str (q : Char)
  | strEsc (q : Char)
  | triple (q : Char)
  | tripleEsc (q : Char)
  | tripleClose1 (q : Char)
  | tripleClose2 (q : Char)

/-- One step of the line tokenizer on the next character. -/
def pyLineStep (st : PyLineState) (c : Char) : PyLineState :=
  match st with
  | .code =>
      if c = '#' then .comment
      else if c = '\'' ∨ c = '"' then .strOpen1 c
      else .code
  | .comment => .comment
  | .strOpen1 q =>
      if c = q then .strOpen2 q
      else if c = '\\' then .strEsc q
      else .str q
  | .strOpen2 q =>
      if c = q then .triple q
      else if c = '#' then .comment
      else if c = '\'' ∨ c = '"' then .strOpen1 c
      else .code
  | .str q =>
      if c = q then .code
      else if c = '\\' then .strEsc q
      else .str q
  | .strEsc q => .str q
  | .triple q =>
      if c = q then .tripleClose1 q
      else if c = '\\' then .tripleEsc q
      else .triple q
  | .tripleEsc q => .triple q
  | .tripleClose1 q =>
      if c = q then .tripleClose2 q
      else if c = '\\' then .tripleEsc q
      else .triple q
  | .tripleClose2 q =>
      if c = q then .code
      else if c = '\\' then .tripleEsc q
      else .triple q

/-- States in which reaching the end of the physical line is
`SyntaxError: unterminated string literal`: inside a single-line string whose
last character was not the continuation backslash. A triple-quoted string or
a backslash continuation may legally run past the end of the line. -/
def pyLineEndsInString : PyLineState → Bool
  | .strOpen1 _ => true
  | .str _ => true
  | _ => false

/-- Tokenizes one physical source line just far enough to detect an
unterminated single-line string literal: true iff the line ends inside one. -/
def pyLineScan (line : Str) : Bool :=
  pyLineEndsInString (line.foldl pyLineStep .code)

/-- Line 88 of afuzz.py, verbatim: the `description=` string literal opened
here is not closed before the end of the line — its closing quote sits on
line 89 — and the line does not end in a backslash. -/
def afuzz_line88 : Str :=
  "    parser = argparse.ArgumentParser(description=\"AFUZZ - ** Async URL Fuzzer **Perform synchronous fuzzing by replacing '@' in the base URL with payloads.".data

/-- Whether CPython accepts the afuzz module at compile time. Only the broken
line is embedded; a line that ends inside a single-line string already makes
the whole module fail to compile, whatever the other lines hold. -/
def afuzz_module_compiles : Bool := !(pyLineScan afuzz_line88)

/-- One real invocation of `python afuzz.py`: the interpreter first compiles
the module, and the syntax error on line 88 aborts every invocation with exit
status 1 — before argument parsing, before any input check or prompt, before
any probe — touching neither the output path nor the network. Were the
module to compile, `main` would run. -/
def afuzz_process (a : Args) (env : Env) : DriverResult :=
  if afuzz_module_compiles then main a env
  else ⟨1, env.output_contents, none⟩

/-! ## Basic lemmas -/

theorem requestsOf_nil : requestsOf [] = [] := rfl

theorem requestsOf_cons_request (u : Str) (es : List Event) :
    requestsOf (.request u :: es) = u :: requestsOf es := rfl

theorem requestsOf_cons_resolve (u : Str) (r : FetchResult) (es : List Event) :
    requestsOf (.resolve u r :: es) = requestsOf es := rfl

theorem requestsOf_cons_logWrite (u : Str) (es : List Event) :
    requestsOf (.logWrite u :: es) = requestsOf es := rfl

theorem requestsOf_append (a b : List Event) :
    requestsOf (a ++ b) = requestsOf a ++ requestsOf b :=
  List.filterMap_append _ _ _

theorem requestsOf_successEvents (u : Str) (r : FetchResult) :
    requestsOf (successEvents u r) = [] := by
  cases r with
  | ok s =>
      simp only [successEvents]
      split <;> rfl
  | err => rfl

theorem seqCheck_successEvents (u : Str) (r : FetchResult) (es : List Event) :
    seqCheck none (successEvents u r ++ es) = seqCheck none es := by
  cases r with
  | ok s =>
      simp only [successEvents]
      split <;> rfl
  | err => rfl

theorem seqCheck_request (u : Str) (es : List Event) :
    seqCheck none (.request u :: es) = seqCheck (some u) es := rfl

theorem seqCheck_resolve_self (u : Str) (r : FetchResult) (es : List Event) :
    seqCheck (some u) (.resolve u r :: es) = seqCheck none es := by
  simp [seqCheck]

theorem sync_trace_requests (base : Str) (transport : Transport)
    (payloads : List Str) :
    requestsOf (sync_fuzz_trace base transport payloads)
      = payloads.map (probe_url base) := by
  induction payloads with
  | nil => rfl
  | cons p ps ih =>
      rw [sync_fuzz_trace, requestsOf_cons_request, requestsOf_cons_resolve,
        requestsOf_append, requestsOf_successEvents, List.nil_append, ih,
        List.map_cons]

theorem sync_trace_seqCheck (base : Str) (transport : Transport)
    (payloads : List Str) :
    seqCheck none (sync_fuzz_trace base transport payloads) = true := by
  induction payloads with
  | nil => rfl
  | cons p ps ih =>
      rw [sync_fuzz_trace, seqCheck_request, seqCheck_resolve_self,
        seqCheck_successEvents]
      exact ih

/-- C1: In sequential (sync) mode, the probe requests are dispatched one at a
time in exact payload order, each ProbeURL being the template with the
placeholder substituted by the corresponding payload, and each request fully
resolves before the next is issued (`seqCheck` admits at most one in-flight
request at a time). -/
theorem sync_sequential_order (base : Str) (transport : Transport)
    (payloads : List Str) :
    requestsOf (sync_fuzz_trace base transport payloads)
      = payloads.map (probe_url base) ∧
    seqCheck none (sync_fuzz_trace base transport payloads) = true :=
  ⟨sync_trace_requests base transport payloads,
    sync_trace_seqCheck base transport payloads⟩

theorem syncStep_count_log (transport : Transport) (base : Str)
    (st : RunResult) (p : Str)
    (h : st.success_count = st.log_file.length) :
    (syncStep transport base st p).success_count
      = (syncStep transport base st p).log_file.length := by
  cases htr : transport (probe_url base p) with
  | ok s =>
      by_cases hs : s = 200 <;> simp [syncStep, htr, hs, h]
  | err => simpa [syncStep, htr] using h

theorem syncFold_count_log (transport : Transport) (base : Str) :
    ∀ (ps : List Str) (st : RunResult),
      st.success_count = st.log_file.length →
      (ps.foldl (syncStep transport base) st).success_count
        = (ps.foldl (syncStep transport base) st).log_file.length := by
  intro ps
  induction ps with
  | nil => intro st h; exact h
  | cons p ps ih =>
      intro st h
      exact ih _ (syncStep_count_log transport base st p h)

theorem asyncStep_count_log (st : RunResult) (r : TaskResult)
    (h : st.success_count = st.log_file.length) :
    (asyncStep st r).success_count = (asyncStep st r).log_file.length := by
  cases r with
  | dict u s =>
      by_cases hs : s = 200 <;> simp [asyncStep, hs, h]
  | exc => simpa [asyncStep] using h

theorem asyncFold_count_log :
    ∀ (rs : List TaskResult) (st : RunResult),
      st.success_count = st.log_file.length →
      (rs.foldl asyncStep st).success_count
        = (rs.foldl asyncStep st).log_file.length := by
  intro rs
  induction rs with
  | nil => intro st h; exact h
  | cons r rs ih =>
      intro st h
      exact ih _ (asyncStep_count_log st r h)

/-- C2: in both sync and async mode, for every payload sequence and every
assignment of transport results, the Success count reported in the final
summary equals the number of lines written to the output log during the run. -/
theorem success_count_matches_log (base : Str) (payloads : List Str)
    (transport : Transport) (prior : List Str) (arrival : List Nat) :
    (sync_fuzz base payloads transport prior).success_count
      = (sync_fuzz base payloads transport prior).log_file.length ∧
    (async_fuzz base payloads transport prior arrival).success_count
      = (async_fuzz base payloads transport prior arrival).log_file.length := by
  constructor
  · exact syncFold_count_log transport base payloads _ rfl
  · exact asyncFold_count_log _ _ rfl

theorem at_not_mem_replaceAt (repl : Str) (h : '@' ∉ repl) :
    ∀ (l : Str), '@' ∉ replaceAt repl l := by
  intro l
  induction l with
  | nil => simp [replaceAt]
  | cons c cs ih =>
      unfold replaceAt
      by_cases hc : c = '@'
      · simp only [if_pos hc, List.mem_append]
        rintro (hm | hm)
        · exact h hm
        · exact ih hm
      · simp only [if_neg hc, List.mem_cons]
        rintro (hm | hm)
        · exact hc hm.symm
        · exact ih hm

/-- C5: for every valid template containing exactly one `@` and every payload
whose trimmed value contains no `@`, substitution produces a ProbeURL with no
remaining `@` character. -/
theorem subst_removes_placeholder (base payload : Str)
    (hcount : base.count '@' = 1) (hp : '@' ∉ pyStrip payload) :
    '@' ∉ probe_url base payload :=
  at_not_mem_replaceAt (pyStrip payload) hp base

theorem subst_removes_placeholder_witness :
    ("http://x/@".data.count '@' = 1 ∧ '@' ∉ pyStrip " admin\n".data) ∧
      '@' ∉ probe_url "http://x/@".data " admin\n".data :=
  ⟨⟨by decide, by decide⟩,
    subst_removes_placeholder _ _ (by decide) (by decide)⟩

/-- C8: the output log is opened in truncate mode (`'w'`) at the start of
every run, so a second run over the first run's log (and in general a run
over any prior contents) leaves exactly the second run's own Success lines. -/
theorem output_log_truncated (base1 base2 : Str) (p1 p2 : List Str)
    (t1 t2 : Transport) (prior prior2 : List Str) (arr1 arr2 : List Nat) :
    (sync_fuzz base2 p2 t2 ((sync_fuzz base1 p1 t1 prior).log_file)).log_file
      = (sync_fuzz base2 p2 t2 []).log_file ∧
    (async_fuzz base2 p2 t2 ((async_fuzz base1 p1 t1 prior arr1).log_file)
        arr2).log_file
      = (async_fuzz base2 p2 t2 [] arr2).log_file ∧
    (sync_fuzz base2 p2 t2 prior2).log_file = (sync_fuzz base2 p2 t2 []).log_file ∧
    (async_fuzz base2 p2 t2 prior2 arr2).log_file
      = (async_fuzz base2 p2 t2 [] arr2).log_file := by
  refine ⟨rfl, rfl, rfl, rfl⟩

/-! ## `asyncio.gather` returns one result per task slot, in task order -/

theorem lookup_gatherPairs (tasks : List TaskResult) :
    ∀ (arrival : List Nat) (i : Nat), i ∈ arrival →
      (gatherPairs tasks arrival).lookup i = tasks.get? i ∨ tasks.get? i = none := by
  intro arrival
  induction arrival with
  | nil => intro i hi; cases hi
  | cons j rest ih =>
      intro i hi
      by_cases hij : i = j
      · subst hij
        cases hj : tasks.get? i with
        | none => exact Or.inr rfl
        | some t =>
            left
            simp only [gatherPairs, List.filterMap_cons, hj, Option.map_some']
            simp [List.lookup, hj]
      · have hi' : i ∈ rest := by
          rcases List.mem_cons.mp hi with h | h
          · exact absurd h hij
          · exact h
        cases hj : tasks.get? j with
        | none =>
            simpa only [gatherPairs, List.filterMap_cons, hj, Option.map_none']
              using ih i hi'
        | some t =>
            simp only [gatherPairs, List.filterMap_cons, hj, Option.map_some']
            rw [List.lookup]
            have : (i == j) = false := by
              simp [hij]
            rw [this]
            exact ih i hi'

theorem filterMap_congr_mem {α β : Type} (f g : α → Option β) :
    ∀ (l : List α), (∀ x ∈ l, f x = g x) → l.filterMap f = l.filterMap g := by
  intro l
  induction l with
  | nil => intro _; rfl
  | cons a l ih =>
      intro h
      rw [List.filterMap_cons, List.filterMap_cons, h a (List.mem_cons_self a l),
        ih fun x hx => h x (List.mem_cons_of_mem a hx)]

theorem filterMap_get_range {α : Type} :
    ∀ (l : List α), (List.range l.length).filterMap (fun i => l.get? i) = l := by
  intro l
  induction l with
  | nil => rfl
  | cons a l ih =>
      have hcomp : ((fun i => (a :: l).get? i) ∘ Nat.succ) = fun i => l.get? i := by
        funext i
        rfl
      rw [List.length_cons, List.range_succ_eq_map]
      simp only [List.filterMap_cons, List.get?_cons_zero, List.filterMap_map,
        hcomp, ih]

theorem asyncio_gather_perm (tasks : List TaskResult) (arrival : List Nat)
    (h : arrival.Perm (List.range tasks.length)) :
    asyncio_gather tasks arrival = tasks := by
  unfold asyncio_gather
  rw [filterMap_congr_mem _ (fun i => tasks.get? i)]
  · exact filterMap_get_range tasks
  · intro i hi
    have hmem : i ∈ arrival := h.mem_iff.mpr hi
    have hlt : i < tasks.length := List.mem_range.mp hi
    rcases lookup_gatherPairs tasks arrival i hmem with heq | hnone
    · exact heq
    · rw [List.get?_eq_get hlt] at hnone
      exact Option.noConfusion hnone

theorem async_results_perm (base : Str) (payloads : List Str)
    (transport : Transport) (arrival : List Nat)
    (h : arrival.Perm (List.range payloads.length)) :
    async_results base payloads transport arrival
      = async_tasks base payloads transport := by
  unfold async_results
  refine asyncio_gather_perm _ _ ?_
  rwa [async_tasks, List.length_map]

/-- C6: in concurrent (async) mode, for a payload sequence of length N,
exactly N probe attempts are issued (one task per payload) and exactly N
results are produced and examined, whatever the arrival order of the
responses. -/
theorem async_exactly_n (base : Str) (payloads : List Str)
    (transport : Transport) (arrival : List Nat)
    (h : arrival.Perm (List.range payloads.length)) :
    (async_tasks base payloads transport).length = payloads.length ∧
    async_results base payloads transport arrival
      = async_tasks base payloads transport ∧
    (async_results base payloads transport arrival).length = payloads.length := by
  have htasks : (async_tasks base payloads transport).length = payloads.length :=
    List.length_map _ _
  have hres := async_results_perm base payloads transport arrival h
  exact ⟨htasks, hres, by rw [hres, htasks]⟩

theorem async_exactly_n_witness :
    ([1, 0].Perm (List.range (["admin\n".data, "login\n".data] : List Str).length)) ∧
    ((async_tasks "http://x/@".data ["admin\n".data, "login\n".data]
        (fun _ => FetchResult.err)).length = 2 ∧
      async_results "http://x/@".data ["admin\n".data, "login\n".data]
          (fun _ => FetchResult.err) [1, 0]
        = async_tasks "http://x/@".data ["admin\n".data, "login\n".data]
            (fun _ => FetchResult.err) ∧
      (async_results "http://x/@".data ["admin\n".data, "login\n".data]
          (fun _ => FetchResult.err) [1, 0]).length = 2) :=
  ⟨by decide,
    async_exactly_n "http://x/@".data ["admin\n".data, "login\n".data]
      (fun _ => FetchResult.err) [1, 0] (by decide)⟩

/-! ## Async refines sync at the sink -/

theorem asyncStep_fetch_eq_syncStep (transport : Transport) (base : Str)
    (st : RunResult) (p : Str) :
    asyncStep st (fetch_url transport (probe_url base p))
      = syncStep transport base st p := by
  cases htr : transport (probe_url base p) <;>
    simp [asyncStep, fetch_url, syncStep, htr]

theorem async_fuzz_eq_sync_fuzz (base : Str) (payloads : List Str)
    (transport : Transport) (prior : List Str) (arrival : List Nat)
    (h : arrival.Perm (List.range payloads.length)) :
    async_fuzz base payloads transport prior arrival
      = sync_fuzz base payloads transport prior := by
  unfold async_fuzz sync_fuzz
  rw [async_results_perm base payloads transport arrival h, async_tasks,
    List.foldl_map]
  simp only [asyncStep_fetch_eq_syncStep]

theorem syncFold_log_decomp (transport : Transport) (base : Str) :
    ∀ (ps : List Str) (st : RunResult),
      (ps.foldl (syncStep transport base) st).log_file
        = st.log_file ++ (ps.map (probe_url base)).filter
            (fun u => decide (transport u = FetchResult.ok 200)) ∧
      (ps.foldl (syncStep transport base) st).printed
        = st.printed ++ (ps.map (probe_url base)).filter
            (fun u => decide (transport u = FetchResult.ok 200)) := by
  intro ps
  induction ps with
  | nil => intro st; simp
  | cons p ps ih =>
      intro st
      rw [List.foldl_cons, List.map_cons, List.filter_cons]
      rcases ih (syncStep transport base st p) with ⟨ihl, ihp⟩
      cases htr : transport (probe_url base p) with
      | ok s =>
          by_cases hs : s = 200
          · subst hs
            rw [ihl, ihp]
            simp [syncStep, htr]
          · rw [ihl, ihp]
            simp [syncStep, htr, hs, FetchResult.ok.injEq]
      | err =>
          rw [ihl, ihp]
          simp [syncStep, htr]

theorem sync_fuzz_log_eq_payload_order_filter (base : Str) (payloads : List Str)
    (transport : Transport) (prior : List Str) :
    (sync_fuzz base payloads transport prior).log_file
      = (payloads.map (probe_url base)).filter
          (fun u => decide (transport u = FetchResult.ok 200)) ∧
    (sync_fuzz base payloads transport prior).printed
      = (payloads.map (probe_url base)).filter
          (fun u => decide (transport u = FetchResult.ok 200)) := by
  rcases syncFold_log_decomp transport base payloads ⟨0, [], openContents "w" prior⟩
    with ⟨hl, hp⟩
  exact ⟨hl, hp⟩

/-- C10: given the same template, payload sequence and per-URL transport
results, async mode is observationally equivalent to sync mode at the sink:
`asyncio.gather` returns results in task-creation (payload) order, so the
whole sink state coincides, and in particular the log and terminal output
list the Success URLs in payload (wordlist) order with an identical count. -/
theorem async_observationally_eq_sync (base : Str) (payloads : List Str)
    (transport : Transport) (prior : List Str) (arrival : List Nat)
    (h : arrival.Perm (List.range payloads.length)) :
    async_fuzz base payloads transport prior arrival
      = sync_fuzz base payloads transport prior ∧
    (async_fuzz base payloads transport prior arrival).log_file
      = (payloads.map (probe_url base)).filter
          (fun u => decide (transport u = FetchResult.ok 200)) ∧
    (async_fuzz base payloads transport prior arrival).printed
      = (payloads.map (probe_url base)).filter
          (fun u => decide (transport u = FetchResult.ok 200)) := by
  have heq := async_fuzz_eq_sync_fuzz base payloads transport prior arrival h
  rcases sync_fuzz_log_eq_payload_order_filter base payloads transport prior
    with ⟨hl, hp⟩
  exact ⟨heq, by rw [heq, hl], by rw [heq, hp]⟩

theorem async_observationally_eq_sync_witness :
    ([1, 0].Perm (List.range (["admin\n".data, "login\n".data] : List Str).length)) ∧
    (async_fuzz "http://x/@".data ["admin\n".data, "login\n".data]
        (fun u => if u = "http://x/admin".data then FetchResult.ok 200
          else FetchResult.ok 404) ["old".data] [1, 0]
      = sync_fuzz "http://x/@".data ["admin\n".data, "login\n".data]
          (fun u => if u = "http://x/admin".data then FetchResult.ok 200
            else FetchResult.ok 404) ["old".data] ∧
      (async_fuzz "http://x/@".data ["admin\n".data, "login\n".data]
          (fun u => if u = "http://x/admin".data then FetchResult.ok 200
            else FetchResult.ok 404) ["old".data] [1, 0]).log_file
        = ((["admin\n".data, "login\n".data] : List Str).map
              (probe_url "http://x/@".data)).filter
            (fun u => decide ((if u = "http://x/admin".data then FetchResult.ok 200
              else FetchResult.ok 404) = FetchResult.ok 200)) ∧
      (async_fuzz "http://x/@".data ["admin\n".data, "login\n".data]
          (fun u => if u = "http://x/admin".data then FetchResult.ok 200
            else FetchResult.ok 404) ["old".data] [1, 0]).printed
        = ((["admin\n".data, "login\n".data] : List Str).map
              (probe_url "http://x/@".data)).filter
            (fun u => decide ((if u = "http://x/admin".data then FetchResult.ok 200
              else FetchResult.ok 404) = FetchResult.ok 200))) :=
  ⟨by decide,
    async_observationally_eq_sync "http://x/@".data
      ["admin\n".data, "login\n".data]
      (fun u => if u = "http://x/admin".data then FetchResult.ok 200
        else FetchResult.ok 404) ["old".data] [1, 0] (by decide)⟩

/-! ## Driver behavior -/

theorem main_inputError_cases (a : Args) (env : Env) :
    (inputError a env → main a env = ⟨1, env.output_contents, none⟩) ∧
    (¬ inputError a env → ∃ content, env.wordlist_content = some content ∧
        main a env = ⟨0, some (runEngine a env content).log_file,
          some (runEngine a env content)⟩) := by
  by_cases h1 : is_valid_url a.url = true
  case neg =>
    have h1' : is_valid_url a.url = false := by simpa using h1
    exact ⟨fun _ => by simp [main, h1'], fun h => absurd (Or.inl h1') h⟩
  by_cases h2 : '@' ∈ a.url
  case neg =>
    exact ⟨fun _ => by simp [main, h1, h2], fun h => absurd (Or.inr (Or.inl h2)) h⟩
  by_cases h3 : env.wordlist_isfile = true
  case neg =>
    have h3' : env.wordlist_isfile = false := by simpa using h3
    exact ⟨fun _ => by simp [main, h1, h2, h3'],
      fun h => absurd (Or.inr (Or.inr (Or.inl h3'))) h⟩
  by_cases h4 : env.output_contents.isSome = true ∧
    pyLower (pyStrip env.overwrite_answer) ≠ ['y']
  case pos =>
    exact ⟨fun _ => by simp [main, h1, h2, h3, h4],
      fun h => absurd (Or.inr (Or.inr (Or.inr (Or.inl h4)))) h⟩
  cases hwc : env.wordlist_content with
  | none =>
      exact ⟨fun _ => by simp [main, h1, h2, h3, h4, hwc],
        fun h => absurd (Or.inr (Or.inr (Or.inr (Or.inr hwc)))) h⟩
  | some content =>
      refine ⟨fun hie => ?_,
        fun _ => ⟨content, rfl, by simp [main, h1, h2, h3, h4, hwc]⟩⟩
      rcases hie with h | h | h | h | h
      · rw [h1] at h
        exact Bool.noConfusion h
      · exact absurd h2 h
      · rw [h3] at h
        exact Bool.noConfusion h
      · exact absurd h h4
      · rw [h] at hwc
        exact Option.noConfusion hwc

theorem main_exit_one_iff (a : Args) (env : Env) :
    (main a env).exitCode = 1 ↔ inputError a env := by
  rcases main_inputError_cases a env with ⟨hyes, hno⟩
  by_cases h : inputError a env
  · rw [hyes h]
    simpa using h
  · rcases hno h with ⟨c, _, hm⟩
    rw [hm]
    simpa using h

theorem main_exit_zero_iff (a : Args) (env : Env) :
    (main a env).exitCode = 0 ↔ ¬ inputError a env := by
  rcases main_inputError_cases a env with ⟨hyes, hno⟩
  by_cases h : inputError a env
  · rw [hyes h]
    simpa using h
  · rcases hno h with ⟨c, _, hm⟩
    rw [hm]
    simpa using h

theorem main_run_iff (a : Args) (env : Env) :
    (main a env).runResult.isSome = true ↔ ¬ inputError a env := by
  rcases main_inputError_cases a env with ⟨hyes, hno⟩
  by_cases h : inputError a env
  · rw [hyes h]
    simpa using h
  · rcases hno h with ⟨c, _, hm⟩
    rw [hm]
    simpa using h

set_option maxRecDepth 4096 in
theorem afuzz_line88_unterminated :
    pyLineScan afuzz_line88 = true := by
  decide

theorem afuzz_process_eq (a : Args) (env : Env) :
    afuzz_process a env = ⟨1, env.output_contents, none⟩ := by
  simp [afuzz_process, afuzz_module_compiles, afuzz_line88_unterminated]

/-- C4: code_bug — the committed program does not exit 1 in exactly the five
claimed input-error cases: afuzz.py line 88 ends inside an unterminated
string literal, so CPython rejects the module before `main` can run, every
invocation exits with status 1 — also when the template, placeholder,
wordlist and overwrite confirmation would all pass — the claimed exit status
0 after a completed run is unreachable, and no run is ever produced. -/
theorem exit_zero_unreachable (a : Args) (env : Env) :
    (afuzz_process a env).exitCode = 1 ∧
    (afuzz_process a env).exitCode ≠ 0 ∧
    (afuzz_process a env).runResult = none := by
  rw [afuzz_process_eq a env]
  exact ⟨rfl, Nat.one_ne_zero, rfl⟩

/-- C9: when the wordlist path is not an existing file, the driver exits with
status 1 before any run starts, and the output path is left exactly as it
was — a missing output file is not created, an existing one is not truncated
or modified. -/
theorem missing_wordlist_preserves_output (a : Args) (env : Env)
    (h : env.wordlist_isfile = false) :
    (main a env).exitCode = 1 ∧
    (main a env).outputFile = env.output_contents ∧
    (main a env).runResult = none := by
  have hie : inputError a env := Or.inr (Or.inr (Or.inl h))
  rw [(main_inputError_cases a env).1 hie]
  exact ⟨rfl, rfl, rfl⟩

theorem missing_wordlist_preserves_output_witness :
    (Env.mk false (some ["old".data]) "y".data (some "admin\n".data)
        (fun _ => FetchResult.ok 200) [0]).wordlist_isfile = false ∧
    ((main ⟨"http://x/@".data, "wl".data, "out".data, Mode.sync⟩
        ⟨false, some ["old".data], "y".data, some "admin\n".data,
          fun _ => FetchResult.ok 200, [0]⟩).exitCode = 1 ∧
      (main ⟨"http://x/@".data, "wl".data, "out".data, Mode.sync⟩
          ⟨false, some ["old".data], "y".data, some "admin\n".data,
            fun _ => FetchResult.ok 200, [0]⟩).outputFile = some ["old".data] ∧
      (main ⟨"http://x/@".data, "wl".data, "out".data, Mode.sync⟩
          ⟨false, some ["old".data], "y".data, some "admin\n".data,
            fun _ => FetchResult.ok 200, [0]⟩).runResult = none) :=
  ⟨rfl,
    missing_wordlist_preserves_output
      ⟨"http://x/@".data, "wl".data, "out".data, Mode.sync⟩
      ⟨false, some ["old".data], "y".data, some "admin\n".data,
        fun _ => FetchResult.ok 200, [0]⟩ rfl⟩

/-! ## Wordlist line handling -/

theorem pyStrip_of_all_space (l : Str) (h : l.all isPySpace = true) :
    pyStrip l = [] := by
  have hdrop : l.dropWhile isPySpace = [] := by
    rw [List.dropWhile_eq_nil_iff]
    intro x hx
    exact List.all_eq_true.mp h x hx
  simp [pyStrip, hdrop]

theorem replaceAt_nil (l : Str) :
    replaceAt [] l = l.filter (fun c => !(c = '@')) := by
  induction l with
  | nil => rfl
  | cons c cs ih =>
      by_cases hc : c = '@' <;> simp [replaceAt, List.filter_cons, hc, ih]

/-- C7: every ProbeURL is built from its wordlist line with surrounding
whitespace (including the trailing newline) stripped; empty or
whitespace-only lines are not filtered out — each line yields exactly one
probe — and such a line's probe URL is the template with the placeholder
marker simply removed. -/
theorem wordlist_lines_trimmed_unfiltered (base content : Str)
    (transport : Transport) (l : Str)
    (hl : l ∈ readlines content) (hws : l.all isPySpace = true) :
    requestsOf (sync_fuzz_trace base transport (readlines content))
      = (readlines content).map (fun line => replaceAt (pyStrip line) base) ∧
    (requestsOf (sync_fuzz_trace base transport (readlines content))).length
      = (readlines content).length ∧
    probe_url base l = base.filter (fun c => !(c = '@')) := by
  have h1 : requestsOf (sync_fuzz_trace base transport (readlines content))
      = (readlines content).map (probe_url base) :=
    sync_trace_requests base transport (readlines content)
  refine ⟨h1, ?_, ?_⟩
  · rw [h1, List.length_map]
  · rw [probe_url, pyStrip_of_all_space l hws, replaceAt_nil]

theorem wordlist_lines_trimmed_unfiltered_witness :
    (" \n".data ∈ readlines "admin\n \n".data ∧
      " \n".data.all isPySpace = true) ∧
    (requestsOf (sync_fuzz_trace "http://x/@".data (fun _ => FetchResult.err)
          (readlines "admin\n \n".data))
        = (readlines "admin\n \n".data).map
            (fun line => replaceAt (pyStrip line) "http://x/@".data) ∧
      (requestsOf (sync_fuzz_trace "http://x/@".data (fun _ => FetchResult.err)
          (readlines "admin\n \n".data))).length
        = (readlines "admin\n \n".data).length ∧
      probe_url "http://x/@".data " \n".data
        = "http://x/@".data.filter (fun c => !(c = '@'))) :=
  ⟨⟨by decide, by decide⟩,
    wordlist_lines_trimmed_unfiltered "http://x/@".data "admin\n \n".data
      (fun _ => FetchResult.err) " \n".data (by decide) (by decide)⟩

/-! ## Transport errors are absorbed -/

theorem mem_sync_log_ok (base : Str) (payloads : List Str)
    (transport : Transport) (prior : List Str) (u : Str)
    (hmem : u ∈ (sync_fuzz base payloads transport prior).log_file) :
    transport u = FetchResult.ok 200 := by
  rw [(sync_fuzz_log_eq_payload_order_filter base payloads transport prior).1]
    at hmem
  exact of_decide_eq_true (List.mem_filter.mp hmem).2

theorem mem_sync_printed_ok (base : Str) (payloads : List Str)
    (transport : Transport) (prior : List Str) (u : Str)
    (hmem : u ∈ (sync_fuzz base payloads transport prior).printed) :
    transport u = FetchResult.ok 200 := by
  rw [(sync_fuzz_log_eq_payload_order_filter base payloads transport prior).2]
    at hmem
  exact of_decide_eq_true (List.mem_filter.mp hmem).2

/-- C3: code_bug — contrary to the claim, a non-input error aborts every run:
afuzz.py line 88 ends inside an unterminated string literal, so the module
never compiles and every invocation, whatever the transport would have
answered for any probe, exits with status 1 before a single probe is
dispatched. No run ever continues through the payloads or terminates
normally; the engine-level absorption the claim describes (`mem_sync_log_ok`,
`mem_sync_printed_ok`, `sync_trace_requests`) is intent the process never
reaches. -/
theorem syntax_error_aborts_every_run (a : Args) (env : Env) :
    pyLineScan afuzz_line88 = true ∧
    afuzz_process a env = ⟨1, env.output_contents, none⟩ := by
  exact ⟨afuzz_line88_unterminated, afuzz_process_eq a env⟩

end AFuzz
